import Mathlib

/-
Verification development for the Jarvis long-term memory subsystem:
a shallow embedding of src/Apps/jarv_memory.py (class JarvisMemory) and of
build_memory_block from src/Apps/jarvis.py, together with theorems settling
the specification claims about them.

The SQLite table `conversations` is embedded as a list of rows plus the next
AUTOINCREMENT id.  SQL clauses are translated to list operations:
WHERE becomes List.filter, ORDER BY id DESC becomes an insertion sort on the
descending-id relation, LIMIT becomes List.take, UPDATE becomes List.map, and
the LIKE operator is given its SQLite semantics (ASCII-case-insensitive
comparison, with the wildcards percent and underscore).
-/

namespace Jarvis

/-- Python str.strip restricted to the whitespace characters relevant here:
drop whitespace from both ends. -/
def pyStrip (s : String) : String :=
  String.mk ((((s.data.dropWhile Char.isWhitespace).reverse).dropWhile Char.isWhitespace).reverse)

/-- Python str.lower (ASCII letters; the data handled by the store is ASCII). -/
def pyLower (s : String) : String :=
  String.mk (s.data.map Char.toLower)

/-- Python str.upper (ASCII letters). -/
def pyUpper (s : String) : String :=
  String.mk (s.data.map Char.toUpper)

/-- SQLite LIKE compares non-wildcard characters ASCII-case-insensitively. -/
def likeCharEq (p c : Char) : Bool :=
  p.toLower == c.toLower

/-- All suffixes of a character list, longest first (the list itself down to []). -/
def suffixes : List Char → List (List Char)
  | [] => [[]]
  | c :: cs => (c :: cs) :: suffixes cs

/-- SQLite LIKE pattern matching: percent matches any sequence of characters,
underscore matches exactly one character, and any other pattern character
matches ASCII-case-insensitively. -/
def likeMatch : List Char → List Char → Bool
  | [], t => t.isEmpty
  | p :: ps, t =>
    if p = '%' then (suffixes t).any (fun su => likeMatch ps su)
    else
      match t with
      | [] => false
      | c :: cs => if p = '_' then likeMatch ps cs else likeCharEq p c && likeMatch ps cs

/-- content LIKE pattern, on whole strings. -/
def sqlLike (pat content : String) : Bool :=
  likeMatch pat.toList content.toList

/-- One row of the conversations table (dataclass MemoryRow in jarv_memory.py);
the INTEGER deleted column (0/1) is embedded as Bool. -/
structure MemoryRow where
  id : Nat
  user_id : String
  role : String
  content : String
  kind : String
  deleted : Bool
  timestamp : String
deriving DecidableEq, Repr

/-- The persistent state behind JarvisMemory: the conversations table plus the
next AUTOINCREMENT id (SQLite assigns strictly increasing ids, never reused). -/
structure Store where
  rows : List MemoryRow
  nextId : Nat
deriving DecidableEq, Repr

/-- Well-formedness delivered by SQLite itself: ids are strictly increasing in
insertion order and below the next id to be assigned. -/
def Store.WF (s : Store) : Prop :=
  s.rows.Pairwise (fun a b => a.id < b.id) ∧ ∀ r ∈ s.rows, r.id < s.nextId

instance (s : Store) : Decidable s.WF := by
  unfold Store.WF; infer_instance

/-- JarvisMemory.store_message.  The CURRENT_TIMESTAMP the database would
assign is passed in as ts.  On a validation failure the method raises before
any INSERT runs, so the state is returned unchanged next to the error. -/
def store_message (s : Store) (user_id role content kind ts : String) :
    Store × Except String Nat :=
  let r := pyLower (pyStrip role)
  if r ∈ (["user", "assistant", "system"] : List String) then
    let k := pyLower (pyStrip (if kind = "" then "chat" else kind))
    if k ∈ (["chat", "remembered"] : List String) then
      let c := pyStrip content
      if c = "" then (s, Except.error "content cannot be empty")
      else
        ({ rows := s.rows ++ [{ id := s.nextId, user_id := user_id, role := r,
                                content := c, kind := k, deleted := false, timestamp := ts }],
           nextId := s.nextId + 1 },
         Except.ok s.nextId)
    else (s, Except.error "kind must be one of: chat, remembered")
  else (s, Except.error "role must be one of: user, assistant, system")

/-- JarvisMemory.remember. -/
def remember (s : Store) (user_id content ts : String) : Store × Except String Nat :=
  store_message s user_id "user" content "remembered" ts

/-- ORDER BY id DESC: the relation the result rows are sorted by. -/
def rowDescLE (a b : MemoryRow) : Prop := b.id ≤ a.id

instance : DecidableRel rowDescLE := fun a b => Nat.decLe b.id a.id

instance : IsTotal MemoryRow rowDescLE :=
  ⟨fun a b => (Nat.le_total b.id a.id).imp (fun h => h) (fun h => h)⟩

instance : IsTrans MemoryRow rowDescLE :=
  ⟨fun _ _ _ hab hbc => Nat.le_trans hbc hab⟩

/-- Ascending sort key used by build_memory_block (rows.sort by id). -/
def rowAscLE (a b : MemoryRow) : Prop := a.id ≤ b.id

instance : DecidableRel rowAscLE := fun a b => Nat.decLe a.id b.id

instance : IsTotal MemoryRow rowAscLE :=
  ⟨fun a b => (Nat.le_total a.id b.id).imp (fun h => h) (fun h => h)⟩

instance : IsTrans MemoryRow rowAscLE :=
  ⟨fun _ _ _ hab hbc => Nat.le_trans hab hbc⟩

/-- Python `max(1, int(limit))`. -/
def effLimit (limit : Int) : Nat := (max 1 limit).toNat

/-- The shared `if kind:` validation block of get_recent and search: a None or
empty kind is no filter at all; otherwise the kind is normalized and must be
chat or remembered. -/
def normalizeKindFilter (kind : Option String) : Except String (Option String) :=
  match kind with
  | none => Except.ok none
  | some k =>
    if k = "" then Except.ok none
    else
      let kn := pyLower (pyStrip k)
      if kn ∈ (["chat", "remembered"] : List String) then Except.ok (some kn)
      else Except.error "kind must be one of: chat, remembered"

/-- The WHERE clause shared by get_recent and (minus the LIKE conjunct) search:
user_id = ?, optionally deleted = 0, optionally kind = ?. -/
def recentFilter (u : String) (includeDeleted : Bool) (kindNorm : Option String)
    (r : MemoryRow) : Bool :=
  r.user_id == u && (includeDeleted || !r.deleted) &&
    (match kindNorm with
     | none => true
     | some k => r.kind == k)

/-- JarvisMemory.get_recent. -/
def get_recent (s : Store) (user_id : String) (limit : Int) (include_deleted : Bool)
    (kind : Option String) : Except String (List MemoryRow) :=
  match normalizeKindFilter kind with
  | Except.error e => Except.error e
  | Except.ok kn =>
    Except.ok ((List.insertionSort rowDescLE
      (s.rows.filter (recentFilter user_id include_deleted kn))).take (effLimit limit))

/-- JarvisMemory.search: LIKE search over content, newest first.  A query that
strips to the empty string returns [] before anything else happens. -/
def search (s : Store) (user_id query : String) (limit : Int) (include_deleted : Bool)
    (kind : Option String) : Except String (List MemoryRow) :=
  let q := pyStrip query
  if q = "" then Except.ok []
  else
    match normalizeKindFilter kind with
    | Except.error e => Except.error e
    | Except.ok kn =>
      Except.ok ((List.insertionSort rowDescLE
        (s.rows.filter (fun r =>
          recentFilter user_id include_deleted kn r &&
            sqlLike ("%" ++ q ++ "%") r.content))).take (effLimit limit))

/-- The WHERE clause of forget_keyword:
user_id = ? AND deleted = 0 AND content LIKE percent-kw-percent. -/
def forgetKwCond (u kw : String) (r : MemoryRow) : Bool :=
  r.user_id == u && !r.deleted && sqlLike ("%" ++ kw ++ "%") r.content

/-- JarvisMemory.forget_keyword: soft-delete all matching rows; the returned
count is the UPDATE rowcount. -/
def forget_keyword (s : Store) (user_id keyword : String) : Store × Nat :=
  let kw := pyStrip keyword
  if kw = "" then (s, 0)
  else
    ({ s with rows := s.rows.map (fun r =>
        if forgetKwCond user_id kw r then { r with deleted := true } else r) },
     (s.rows.filter (forgetKwCond user_id kw)).length)

/-- The WHERE clause of forget_id: user_id = ? AND id = ? AND deleted = 0. -/
def forgetIdCond (u : String) (rid : Nat) (r : MemoryRow) : Bool :=
  r.user_id == u && r.id == rid && !r.deleted

/-- JarvisMemory.forget_id. -/
def forget_id (s : Store) (user_id : String) (row_id : Nat) : Store × Nat :=
  ({ s with rows := s.rows.map (fun r =>
      if forgetIdCond user_id row_id r then { r with deleted := true } else r) },
   (s.rows.filter (forgetIdCond user_id row_id)).length)

/-- JarvisMemory.clear_user: soft-delete every non-deleted row of the user. -/
def clear_user (s : Store) (user_id : String) : Store × Nat :=
  ({ s with rows := s.rows.map (fun r =>
      if r.user_id == user_id && !r.deleted then { r with deleted := true } else r) },
   (s.rows.filter (fun r => r.user_id == user_id && !r.deleted)).length)

/-- The fixed first line emitted by build_memory_block. -/
def memHeader : String := "Long-term memory (SQLite). Use this for continuity:"

/-- One rendered memory line of build_memory_block. -/
def renderMemoryLine (r : MemoryRow) : String :=
  "- " ++ pyUpper r.role ++ " (" ++ (if r.kind = "" then "chat" else r.kind) ++ "): " ++ r.content

/-- The get_recent calls made by build_memory_block; the kinds it passes are
always valid, so the error branch is unreachable there. -/
def recentOrEmpty (s : Store) (u : String) (limit : Int) (kind : Option String) :
    List MemoryRow :=
  match get_recent s u limit false kind with
  | Except.ok l => l
  | Except.error _ => []

/-- The local `rows` of build_memory_block after the two fetches. -/
def memoryFetched (s : Store) (u : String) (n : Int) (includeChat includeRemembered : Bool) :
    List MemoryRow :=
  (if includeChat then recentOrEmpty s u n (some "chat") else []) ++
    (if includeRemembered then recentOrEmpty s u n (some "remembered") else [])

/-- The local `rows` of build_memory_block after rows.sort(key id) and the
slice rows[-mem_inject:]. -/
def memorySelected (s : Store) (u : String) (n : Int) (includeChat includeRemembered : Bool) :
    List MemoryRow :=
  let sorted := List.insertionSort rowAscLE (memoryFetched s u n includeChat includeRemembered)
  sorted.drop (sorted.length - n.toNat)

/-- build_memory_block from jarvis.py (the memory argument being non-None is
represented by having a Store at all). -/
def build_memory_block (s : Store) (mem_user : String) (mem_inject : Int)
    (include_chat include_remembered : Bool) : String :=
  if mem_inject ≤ 0 then ""
  else if memoryFetched s mem_user mem_inject include_chat include_remembered = [] then ""
  else
    pyStrip (String.intercalate "\n"
      (memHeader ::
        (memorySelected s mem_user mem_inject include_chat include_remembered).map
          renderMemoryLine))

/-- One row of the legacy conversations table during migration.  The legacy
columns user_id, message, timestamp, context always exist; the current columns
are optional, none meaning the column is absent or NULL for this row. -/
structure LegacyRow where
  user_id : String
  message : String
  timestamp : String
  context : String
  content : Option String
  role : Option String
  kind : Option String
  deleted : Option Nat
deriving DecidableEq, Repr

/-- The conversations table as seen by _attempt_migrate_legacy_schema: the
column list from PRAGMA table_info (empty when no table exists) and the rows. -/
structure LegacyTable where
  cols : List String
  rows : List LegacyRow
deriving DecidableEq, Repr

/-- The role CASE expression of the migration UPDATE. -/
def legacyRole (context : String) : String :=
  let lc := pyLower context
  if lc ∈ (["user", "assistant", "system"] : List String) then lc
  else if lc ∈ (["remembered", "memory", "note"] : List String) then "user"
  else "user"

/-- The kind CASE test of the migration UPDATE. -/
def legacyKindIsMemory (context : String) : Bool :=
  (["remembered", "memory", "note"] : List String).contains (pyLower context)

/-- The four ALTER TABLE ADD COLUMN statements: a freshly added role or content
column is NULL on existing rows, a freshly added kind column defaults to chat,
a freshly added deleted column defaults to 0; columns already present keep
their stored values. -/
def migrateAddCols (t : LegacyTable) : LegacyTable :=
  { cols := t.cols
      ++ (if "role" ∈ t.cols then [] else ["role"])
      ++ (if "content" ∈ t.cols then [] else ["content"])
      ++ (if "kind" ∈ t.cols then [] else ["kind"])
      ++ (if "deleted" ∈ t.cols then [] else ["deleted"]),
    rows := t.rows.map (fun r =>
      { r with
        role := if "role" ∈ t.cols then r.role else none,
        content := if "content" ∈ t.cols then r.content else none,
        kind := if "kind" ∈ t.cols then r.kind else some "chat",
        deleted := if "deleted" ∈ t.cols then r.deleted else some 0 }) }

/-- The three UPDATE statements of the migration, applied to one row:
content = COALESCE(content, message) WHERE content IS NULL;
role = CASE ... WHERE role IS NULL; kind = CASE ... (unconditionally). -/
def migrateUpdateRow (r : LegacyRow) : LegacyRow :=
  let r1 := if r.content = none then { r with content := some r.message } else r
  let r2 := if r1.role = none then { r1 with role := some (legacyRole r1.context) } else r1
  { r2 with kind := if legacyKindIsMemory r2.context then some "remembered"
                    else some (r2.kind.getD "chat") }

/-- JarvisMemory._attempt_migrate_legacy_schema: no table or a table already
carrying content and role is left untouched; a table with the legacy message
and context columns gets the new columns added and back-filled. -/
def migrate_legacy (t : LegacyTable) : LegacyTable :=
  if t.cols = [] then t
  else if "content" ∈ t.cols ∧ "role" ∈ t.cols then t
  else if "message" ∈ t.cols ∧ "context" ∈ t.cols then
    let t1 := migrateAddCols t
    { t1 with rows := t1.rows.map migrateUpdateRow }
  else t

/-! ### Helper lemmas about the LIKE matcher -/

theorem likeMatch_nil_pat (t : List Char) : likeMatch [] t = t.isEmpty := by
  simp [likeMatch]

theorem likeMatch_percent (ps t : List Char) :
    likeMatch ('%' :: ps) t = (suffixes t).any (fun su => likeMatch ps su) := by
  simp [likeMatch]

theorem likeMatch_underscore (ps : List Char) (c : Char) (cs : List Char) :
    likeMatch ('_' :: ps) (c :: cs) = likeMatch ps cs := by
  simp [likeMatch]

theorem likeMatch_char {p : Char} (hp : p ≠ '%') (hp' : p ≠ '_') (ps : List Char)
    (c : Char) (cs : List Char) :
    likeMatch (p :: ps) (c :: cs) = (likeCharEq p c && likeMatch ps cs) := by
  simp [likeMatch, hp, hp']

theorem likeMatch_cons_nil {p : Char} (hp : p ≠ '%') (ps : List Char) :
    likeMatch (p :: ps) [] = false := by
  simp [likeMatch, hp]

theorem mem_suffixes_self (t : List Char) : t ∈ suffixes t := by
  cases t <;> simp [suffixes]

theorem nil_mem_suffixes (t : List Char) : [] ∈ suffixes t := by
  induction t with
  | nil => simp [suffixes]
  | cons c cs ih => simp [suffixes, ih]

theorem mem_suffixes_append (pre : List Char) {t su : List Char} (h : su ∈ suffixes t) :
    su ∈ suffixes (pre ++ t) := by
  induction pre with
  | nil => simpa using h
  | cons a pre ih => simp only [List.cons_append, suffixes, List.mem_cons]; exact Or.inr ih

theorem likeMatch_percent_of {ps t : List Char} (h : likeMatch ps t = true) :
    likeMatch ('%' :: ps) t = true := by
  rw [likeMatch_percent, List.any_eq_true]
  exact ⟨t, mem_suffixes_self t, h⟩

theorem likeMatch_percent_nil (t : List Char) : likeMatch ['%'] t = true := by
  rw [likeMatch_percent, List.any_eq_true]
  exact ⟨[], nil_mem_suffixes t, by rw [likeMatch_nil_pat]; rfl⟩

theorem likeMatch_percent_prepend (pre : List Char) {ps t : List Char}
    (h : likeMatch ('%' :: ps) t = true) : likeMatch ('%' :: ps) (pre ++ t) = true := by
  rw [likeMatch_percent, List.any_eq_true] at h ⊢
  obtain ⟨su, hmem, hsu⟩ := h
  exact ⟨su, mem_suffixes_append pre hmem, hsu⟩

theorem likeMatch_caseEq_append {q mid : List Char} (post : List Char)
    (h : List.Forall₂ (fun a b => likeCharEq a b = true) q mid) :
    likeMatch (q ++ ['%']) (mid ++ post) = true := by
  induction h with
  | nil => simpa using likeMatch_percent_nil post
  | @cons a b q mid hab _ ih =>
    by_cases ha : a = '%'
    · subst ha
      rw [List.cons_append, likeMatch_percent, List.any_eq_true]
      refine ⟨mid ++ post, ?_, ih⟩
      rw [List.cons_append, suffixes]
      exact List.mem_cons_of_mem _ (mem_suffixes_self (mid ++ post))
    · by_cases ha' : a = '_'
      · subst ha'
        rw [List.cons_append, List.cons_append, likeMatch_underscore]
        exact ih
      · rw [List.cons_append, List.cons_append, likeMatch_char ha ha']
        simp [hab, ih]

theorem likeMatch_infix_caseEq {q pre mid post : List Char}
    (h : List.Forall₂ (fun a b => likeCharEq a b = true) q mid) :
    likeMatch ('%' :: (q ++ ['%'])) (pre ++ (mid ++ post)) = true :=
  likeMatch_percent_prepend pre (likeMatch_percent_of (likeMatch_caseEq_append post h))

/-! ### Helper lemmas about lists -/

theorem forall₂_map_self {α : Type} {R : α → α → Prop} {f : α → α} :
    ∀ {l : List α}, (∀ a ∈ l, R a (f a)) → List.Forall₂ R l (l.map f)
  | [], _ => List.Forall₂.nil
  | a :: l, h =>
    List.Forall₂.cons (h a (List.mem_cons_self a l))
      (forall₂_map_self fun x hx => h x (List.mem_cons_of_mem a hx))

/-- Membership in a SELECT result when the LIMIT is at least the table size:
exactly the rows passing the WHERE clause. -/
theorem mem_sortTake_of_le {p : MemoryRow → Bool} {rows : List MemoryRow} {n : Nat}
    (hn : rows.length ≤ n) (r : MemoryRow) :
    r ∈ (List.insertionSort rowDescLE (rows.filter p)).take n ↔ r ∈ rows ∧ p r = true := by
  have hlen : (List.insertionSort rowDescLE (rows.filter p)).length ≤ n := by
    rw [List.length_insertionSort]
    exact le_trans (List.length_filter_le p rows) hn
  rw [List.take_of_length_le hlen,
    (List.perm_insertionSort rowDescLE (rows.filter p)).mem_iff, List.mem_filter]

/-- Membership in any SELECT result implies passing the WHERE clause. -/
theorem of_mem_sortTake {p : MemoryRow → Bool} {rows : List MemoryRow} {n : Nat}
    {r : MemoryRow} (h : r ∈ (List.insertionSort rowDescLE (rows.filter p)).take n) :
    r ∈ rows ∧ p r = true := by
  have := (List.perm_insertionSort rowDescLE (rows.filter p)).mem_iff.mp
    (List.mem_of_mem_take h)
  exact List.mem_filter.mp this

/-- With distinct ids in the table, a SELECT ... ORDER BY id DESC LIMIT result
is strictly descending by id. -/
theorem sortTake_strict_desc {rows : List MemoryRow}
    (hids : rows.Pairwise (fun a b => a.id < b.id)) (p : MemoryRow → Bool) (n : Nat) :
    ((List.insertionSort rowDescLE (rows.filter p)).take n).Pairwise
      (fun a b => b.id < a.id) := by
  have hne : (rows.filter p).Pairwise (fun a b => a.id ≠ b.id) :=
    (hids.sublist (List.filter_sublist rows)).imp fun h => Nat.ne_of_lt h
  have hsym : ∀ {a b : MemoryRow}, a.id ≠ b.id → b.id ≠ a.id := fun h => Ne.symm h
  have hne' : (List.insertionSort rowDescLE (rows.filter p)).Pairwise
      (fun a b => a.id ≠ b.id) :=
    ((List.perm_insertionSort rowDescLE (rows.filter p)).pairwise_iff hsym).mpr hne
  have hsorted : (List.insertionSort rowDescLE (rows.filter p)).Pairwise rowDescLE :=
    List.sorted_insertionSort rowDescLE (rows.filter p)
  have hcomb := (hsorted.and hne').imp
    (fun h => Nat.lt_of_le_of_ne h.1 (hsym h.2) : ∀ {a b : MemoryRow},
      rowDescLE a b ∧ a.id ≠ b.id → b.id < a.id)
  exact hcomb.sublist (List.take_sublist n _)

theorem map_id_of_eq {α : Type} {f : α → α} :
    ∀ {l : List α}, (∀ a ∈ l, f a = a) → l.map f = l
  | [], _ => rfl
  | a :: l, h => by
    rw [List.map_cons, h a (List.mem_cons_self a l),
      map_id_of_eq fun x hx => h x (List.mem_cons_of_mem a hx)]

/-! ### Claim theorems -/

/-- Case analysis of store_message: the three validation failures, the
unchanged state on failure, the appended row on success, and preservation of
well-formedness with a fresh id. -/
theorem store_message_cases (s : Store) (u role content kind ts : String) :
    (pyLower (pyStrip role) ∉ (["user", "assistant", "system"] : List String) →
      store_message s u role content kind ts =
        (s, Except.error "role must be one of: user, assistant, system")) ∧
    (pyLower (pyStrip role) ∈ (["user", "assistant", "system"] : List String) →
      pyLower (pyStrip (if kind = "" then "chat" else kind)) ∉
          (["chat", "remembered"] : List String) →
      store_message s u role content kind ts =
        (s, Except.error "kind must be one of: chat, remembered")) ∧
    (pyLower (pyStrip role) ∈ (["user", "assistant", "system"] : List String) →
      pyLower (pyStrip (if kind = "" then "chat" else kind)) ∈
          (["chat", "remembered"] : List String) →
      pyStrip content = "" →
      store_message s u role content kind ts =
        (s, Except.error "content cannot be empty")) ∧
    (∀ e, (store_message s u role content kind ts).2 = Except.error e →
      (store_message s u role content kind ts).1 = s) ∧
    (pyLower (pyStrip role) ∈ (["user", "assistant", "system"] : List String) →
      pyLower (pyStrip (if kind = "" then "chat" else kind)) ∈
          (["chat", "remembered"] : List String) →
      pyStrip content ≠ "" →
      store_message s u role content kind ts =
        ({ rows := s.rows ++ [{ id := s.nextId, user_id := u,
                                role := pyLower (pyStrip role), content := pyStrip content,
                                kind := pyLower (pyStrip (if kind = "" then "chat" else kind)),
                                deleted := false, timestamp := ts }],
           nextId := s.nextId + 1 }, Except.ok s.nextId)) ∧
    (s.WF → s.nextId ∉ s.rows.map MemoryRow.id ∧
      (store_message s u role content kind ts).1.WF) := by
  refine ⟨?_, ?_, ?_, ?_, ?_, ?_⟩
  · intro h1; simp [store_message, h1]
  · intro h1 h2; simp [store_message, h1, h2]
  · intro h1 h2 h3; simp [store_message, h1, h2, h3]
  · intro e he
    by_cases h1 : pyLower (pyStrip role) ∈ (["user", "assistant", "system"] : List String)
    · by_cases h2 : pyLower (pyStrip (if kind = "" then "chat" else kind)) ∈
          (["chat", "remembered"] : List String)
      · by_cases h3 : pyStrip content = ""
        · simp [store_message, h1, h2, h3]
        · simp [store_message, h1, h2, h3] at he
      · simp [store_message, h1, h2]
    · simp [store_message, h1]
  · intro h1 h2 h3; simp [store_message, h1, h2, h3]
  · intro hwf
    have hnot : s.nextId ∉ s.rows.map MemoryRow.id := by
      simp only [List.mem_map, not_exists, not_and]
      intro r hr hid
      exact absurd hid (Nat.ne_of_lt (hwf.2 r hr))
    refine ⟨hnot, ?_⟩
    by_cases h1 : pyLower (pyStrip role) ∈ (["user", "assistant", "system"] : List String)
    · by_cases h2 : pyLower (pyStrip (if kind = "" then "chat" else kind)) ∈
          (["chat", "remembered"] : List String)
      · by_cases h3 : pyStrip content = ""
        · simpa [store_message, h1, h2, h3] using hwf
        · rw [show (store_message s u role content kind ts).1 =
              { rows := s.rows ++ [{ id := s.nextId, user_id := u,
                                     role := pyLower (pyStrip role), content := pyStrip content,
                                     kind := pyLower (pyStrip (if kind = "" then "chat" else kind)),
                                     deleted := false, timestamp := ts }],
                nextId := s.nextId + 1 } by simp [store_message, h1, h2, h3]]
          constructor
          · rw [List.pairwise_append]
            refine ⟨hwf.1, List.pairwise_singleton _ _, ?_⟩
            intro a ha b hb
            rw [List.mem_singleton] at hb
            subst hb
            exact hwf.2 a ha
          · intro r hr
            rcases List.mem_append.mp hr with h | h
            · exact Nat.lt_trans (hwf.2 r h) (Nat.lt_succ_self _)
            · rw [List.mem_singleton] at h
              subst h
              exact Nat.lt_succ_self _
      · simpa [store_message, h1, h2] using hwf
    · simpa [store_message, h1] using hwf

/-- C2: store_message rejects a role outside user/assistant/system and a kind
outside chat/remembered with a validation error naming the field, rejects
content that strips to the empty string, leaves the store unchanged in every
failure case, and on success appends exactly one new row with deleted = false
and returns its fresh id (never an existing one). -/
theorem store_message_spec (s : Store) (u role content kind ts : String) :
    (pyLower (pyStrip role) ∉ (["user", "assistant", "system"] : List String) →
      store_message s u role content kind ts =
        (s, Except.error "role must be one of: user, assistant, system")) ∧
    (pyLower (pyStrip role) ∈ (["user", "assistant", "system"] : List String) →
      pyLower (pyStrip (if kind = "" then "chat" else kind)) ∉
          (["chat", "remembered"] : List String) →
      store_message s u role content kind ts =
        (s, Except.error "kind must be one of: chat, remembered")) ∧
    (pyLower (pyStrip role) ∈ (["user", "assistant", "system"] : List String) →
      pyLower (pyStrip (if kind = "" then "chat" else kind)) ∈
          (["chat", "remembered"] : List String) →
      pyStrip content = "" →
      store_message s u role content kind ts =
        (s, Except.error "content cannot be empty")) ∧
    (∀ e, (store_message s u role content kind ts).2 = Except.error e →
      (store_message s u role content kind ts).1 = s) ∧
    (pyLower (pyStrip role) ∈ (["user", "assistant", "system"] : List String) →
      pyLower (pyStrip (if kind = "" then "chat" else kind)) ∈
          (["chat", "remembered"] : List String) →
      pyStrip content ≠ "" →
      store_message s u role content kind ts =
        ({ rows := s.rows ++ [{ id := s.nextId, user_id := u,
                                role := pyLower (pyStrip role), content := pyStrip content,
                                kind := pyLower (pyStrip (if kind = "" then "chat" else kind)),
                                deleted := false, timestamp := ts }],
           nextId := s.nextId + 1 }, Except.ok s.nextId)) ∧
    (s.WF → s.nextId ∉ s.rows.map MemoryRow.id ∧
      (store_message s u role content kind ts).1.WF) :=
  store_message_cases s u role content kind ts

/-- Witness for C2: a concrete invalid role is rejected with the role message
and the store unchanged; a concrete valid normalized call appends the row and
returns id 1. -/
theorem store_message_spec_witness :
    store_message { rows := [], nextId := 1 } "JD" "wizard" "hi" "chat" "t" =
      ({ rows := [], nextId := 1 },
        Except.error "role must be one of: user, assistant, system") ∧
    store_message { rows := [], nextId := 1 } "JD" " User " "  hi  " "" "t" =
      ({ rows := [{ id := 1, user_id := "JD", role := "user", content := "hi",
                    kind := "chat", deleted := false, timestamp := "t" }], nextId := 2 },
        Except.ok 1) := by
  constructor
  · exact (store_message_spec { rows := [], nextId := 1 } "JD" "wizard" "hi" "chat" "t").1
      (by decide)
  · exact (store_message_spec { rows := [], nextId := 1 } "JD" " User " "  hi  " "" "t").2.2.2.2.1
      (by decide) (by decide) (by decide)

/-- C9: a query that strips to blank makes search return the empty list before
anything else happens, and a keyword that strips to blank makes forget_keyword
return 0 with the store untouched; neither blank input matches everything. -/
theorem blank_patterns_no_match (s : Store) (u query kw : String) (limit : Int)
    (incl : Bool) (kind : Option String) :
    (pyStrip query = "" → search s u query limit incl kind = Except.ok []) ∧
    (pyStrip kw = "" → forget_keyword s u kw = (s, 0)) := by
  constructor
  · intro h; simp [search, h]
  · intro h; simp [forget_keyword, h]

/-- Witness for C9 on a store holding one row: the blank query and blank
keyword are no-ops there. -/
theorem blank_patterns_no_match_witness :
    search { rows := [{ id := 1, user_id := "JD", role := "user", content := "hi",
                        kind := "chat", deleted := false, timestamp := "t" }], nextId := 2 }
        "JD" "   " 5 false none = Except.ok [] ∧
    forget_keyword { rows := [{ id := 1, user_id := "JD", role := "user", content := "hi",
                                kind := "chat", deleted := false, timestamp := "t" }],
                     nextId := 2 } "JD" " " =
      ({ rows := [{ id := 1, user_id := "JD", role := "user", content := "hi",
                    kind := "chat", deleted := false, timestamp := "t" }], nextId := 2 }, 0) := by
  constructor
  · exact (blank_patterns_no_match _ "JD" "   " " " 5 false none).1 (by decide)
  · exact (blank_patterns_no_match _ "JD" "   " " " 5 false none).2 (by decide)

/-- If the kind filter validates to a concrete normalized kind, it is the
normalization of the supplied one. -/
theorem normalizeKindFilter_ok {k : String} {kn : Option String}
    (hk0 : k ≠ "") (hnk : normalizeKindFilter (some k) = Except.ok kn) :
    kn = some (pyLower (pyStrip k)) := by
  by_cases hmem : pyLower (pyStrip k) ∈ (["chat", "remembered"] : List String)
  · simp [normalizeKindFilter, hk0, hmem] at hnk
    exact hnk.symm
  · simp [normalizeKindFilter, hk0, hmem] at hnk

/-- The scenario store of §8: five chat rows for user JD, ids 1..5,
alternating user and assistant roles. -/
def sampleStore5 : Store :=
  { rows := [
      { id := 1, user_id := "JD", role := "user", content := "m1", kind := "chat",
        deleted := false, timestamp := "t1" },
      { id := 2, user_id := "JD", role := "assistant", content := "m2", kind := "chat",
        deleted := false, timestamp := "t2" },
      { id := 3, user_id := "JD", role := "user", content := "m3", kind := "chat",
        deleted := false, timestamp := "t3" },
      { id := 4, user_id := "JD", role := "assistant", content := "m4", kind := "chat",
        deleted := false, timestamp := "t4" },
      { id := 5, user_id := "JD", role := "user", content := "m5", kind := "chat",
        deleted := false, timestamp := "t5" }],
    nextId := 6 }

/-- C3: get_recent returns at most the effective limit (at least 1) of rows,
all belonging to the requested user, excluding soft-deleted rows unless
include_deleted, restricted to the normalized kind when a non-empty kind
filter is given, strictly descending by id; a non-empty kind filter outside
chat/remembered is a validation error.  On the §8 scenario store, limit 3
returns ids 5, 4, 3 in that order. -/
theorem get_recent_spec :
    (∀ (s : Store) (u : String) (limit : Int) (incl : Bool) (kind : Option String),
      Store.WF s →
      (∀ k, kind = some k → k ≠ "" →
        pyLower (pyStrip k) ∉ (["chat", "remembered"] : List String) →
        get_recent s u limit incl kind =
          Except.error "kind must be one of: chat, remembered") ∧
      (∀ l, get_recent s u limit incl kind = Except.ok l →
        l.length ≤ (max 1 limit).toNat ∧
        (∀ r ∈ l, r ∈ s.rows ∧ r.user_id = u ∧ (incl = false → r.deleted = false) ∧
          ∀ k, kind = some k → k ≠ "" → r.kind = pyLower (pyStrip k)) ∧
        l.Pairwise (fun a b => b.id < a.id))) ∧
    get_recent sampleStore5 "JD" 3 false none =
      Except.ok [
        { id := 5, user_id := "JD", role := "user", content := "m5", kind := "chat",
          deleted := false, timestamp := "t5" },
        { id := 4, user_id := "JD", role := "assistant", content := "m4", kind := "chat",
          deleted := false, timestamp := "t4" },
        { id := 3, user_id := "JD", role := "user", content := "m3", kind := "chat",
          deleted := false, timestamp := "t3" }] := by
  constructor
  · intro s u limit incl kind hwf
    constructor
    · intro k hk hk0 hkn
      subst hk
      simp [get_recent, normalizeKindFilter, hk0, hkn]
    · intro l hl
      cases hnk : normalizeKindFilter kind with
      | error e => simp [get_recent, hnk] at hl
      | ok kn =>
        simp only [get_recent, hnk] at hl
        injection hl with hl
        subst hl
        refine ⟨?_, ?_, ?_⟩
        · rw [List.length_take, effLimit]
          exact min_le_left _ _
        · intro r hr
          obtain ⟨hrs, hf⟩ := of_mem_sortTake hr
          simp only [recentFilter, Bool.and_eq_true, beq_iff_eq, Bool.or_eq_true,
            Bool.not_eq_true'] at hf
          refine ⟨hrs, hf.1.1, ?_, ?_⟩
          · intro hincl
            rcases hf.1.2 with h | h
            · rw [hincl] at h; cases h
            · exact h
          · intro k hk hk0
            subst hk
            have := normalizeKindFilter_ok hk0 hnk
            subst this
            simpa using hf.2
        · exact sortTake_strict_desc hwf.1 _ _
  · rfl

/-- Witness for C3: on the concrete scenario store, an invalid kind filter is
rejected with the validation error. -/
theorem get_recent_spec_witness :
    get_recent sampleStore5 "JD" 3 false (some "weird") =
      Except.error "kind must be one of: chat, remembered" :=
  ((get_recent_spec.1 sampleStore5 "JD" 3 false (some "weird")) (by decide)).1
    "weird" rfl (by decide) (by decide)

/-- C4: forget_keyword soft-deletes exactly the rows that search returns for
the same keyword (with a limit covering the whole table and default filters):
positionally, a row transitions from live to deleted precisely when it is a
member of the search result, and the returned count is the number of rows
whose deleted flag transitioned. -/
theorem forget_keyword_matches_search (s : Store) (u kw : String) (l : List MemoryRow)
    (hs : search s u kw (Int.ofNat s.rows.length) false none = Except.ok l) :
    List.Forall₂ (fun r r' => (r'.deleted = true ∧ r.deleted = false) ↔ r ∈ l)
      s.rows (forget_keyword s u kw).1.rows ∧
    (forget_keyword s u kw).2 = s.rows.countP (fun r => decide (r ∈ l)) := by
  by_cases hq : pyStrip kw = ""
  · have hl : l = [] := by
      simp [search, hq] at hs
      exact hs
    subst hl
    constructor
    · rw [show (forget_keyword s u kw).1.rows = s.rows by simp [forget_keyword, hq]]
      rw [List.forall₂_same]
      intro r _
      simp
    · simp [forget_keyword, hq]
  · have hmem : ∀ r, r ∈ l ↔ r ∈ s.rows ∧ forgetKwCond u (pyStrip kw) r = true := by
      intro r
      have hn : s.rows.length ≤ effLimit (Int.ofNat s.rows.length) := by
        simp [effLimit]
      have hl : l = (List.insertionSort rowDescLE
          (s.rows.filter (fun r =>
            recentFilter u false none r &&
              sqlLike ("%" ++ pyStrip kw ++ "%") r.content))).take
            (effLimit (Int.ofNat s.rows.length)) := by
        simp only [search, hq, if_neg hq, normalizeKindFilter] at hs
        injection hs with hs
        exact hs.symm
      rw [hl, mem_sortTake_of_le hn]
      simp [recentFilter, forgetKwCond, Bool.and_assoc]
    constructor
    · rw [show (forget_keyword s u kw).1.rows = s.rows.map (fun r =>
          if forgetKwCond u (pyStrip kw) r then { r with deleted := true } else r) by
        simp [forget_keyword, hq]]
      refine forall₂_map_self ?_
      intro r hr
      by_cases hc : forgetKwCond u (pyStrip kw) r = true
      · have hdel : r.deleted = false := by
          simp only [forgetKwCond, Bool.and_eq_true, Bool.not_eq_true'] at hc
          exact hc.1.2
        rw [if_pos hc]
        exact iff_of_true ⟨rfl, hdel⟩ ((hmem r).mpr ⟨hr, hc⟩)
      · rw [if_neg hc]
        refine iff_of_false (fun h => ?_) (fun h => ?_)
        · rw [h.2] at h
          cases h.1
        · exact hc ((hmem r).mp h).2
    · rw [show (forget_keyword s u kw).2 =
          (s.rows.filter (forgetKwCond u (pyStrip kw))).length by simp [forget_keyword, hq]]
      rw [← List.countP_eq_length_filter]
      refine List.countP_congr ?_
      intro r hr
      rw [decide_eq_true_iff]
      exact ⟨fun hc => (hmem r).mpr ⟨hr, hc⟩, fun h => ((hmem r).mp h).2⟩

/-- Witness for C4 on the §8 scenario store with keyword m4: the search result
is the single matching row and the count equation holds there. -/
theorem forget_keyword_matches_search_witness :
    (forget_keyword sampleStore5 "JD" "m4").2 =
      sampleStore5.rows.countP (fun r => decide (r ∈ [
        ({ id := 4, user_id := "JD", role := "assistant", content := "m4", kind := "chat",
           deleted := false, timestamp := "t4" } : MemoryRow)])) :=
  (forget_keyword_matches_search sampleStore5 "JD" "m4" [
    { id := 4, user_id := "JD", role := "assistant", content := "m4", kind := "chat",
      deleted := false, timestamp := "t4" }] rfl).2

/-- C6: forget_id returns 1 and flips exactly the addressed record when a
record with that id exists for that user and is not yet deleted; otherwise it
returns 0 and every row of every namespace is left exactly as it was. -/
theorem forget_id_spec (s : Store) (u : String) (rid : Nat) (hwf : Store.WF s) :
    ((forget_id s u rid).2 = 1 ↔
      ∃ r ∈ s.rows, r.user_id = u ∧ r.id = rid ∧ r.deleted = false) ∧
    ((forget_id s u rid).2 = 0 ∨ (forget_id s u rid).2 = 1) ∧
    ((forget_id s u rid).2 = 0 → (forget_id s u rid).1.rows = s.rows) ∧
    List.Forall₂ (fun r r' =>
      (r.user_id = u ∧ r.id = rid ∧ r.deleted = false → r' = { r with deleted := true }) ∧
      (¬(r.user_id = u ∧ r.id = rid ∧ r.deleted = false) → r' = r))
      s.rows (forget_id s u rid).1.rows := by
  have hcond : ∀ r : MemoryRow, forgetIdCond u rid r = true ↔
      r.user_id = u ∧ r.id = rid ∧ r.deleted = false := by
    intro r
    simp [forgetIdCond, Bool.and_assoc]
  have hflt : ∀ r ∈ s.rows.filter (forgetIdCond u rid), r.id = rid := by
    intro r hr
    exact ((hcond r).mp (List.mem_filter.mp hr).2).2.1
  have hp : (s.rows.filter (forgetIdCond u rid)).Pairwise (fun a b => a.id < b.id) :=
    hwf.1.sublist (List.filter_sublist s.rows)
  have hlen : (s.rows.filter (forgetIdCond u rid)).length ≤ 1 := by
    cases hfl : s.rows.filter (forgetIdCond u rid) with
    | nil => simp
    | cons a tl =>
      cases tl with
      | nil => simp
      | cons b t =>
        exfalso
        rw [hfl] at hp
        have hab : a.id < b.id := (List.pairwise_cons.mp hp).1 b (List.mem_cons_self b t)
        have ha : a.id = rid := hflt a (by rw [hfl]; exact List.mem_cons_self _ _)
        have hb : b.id = rid := by
          refine hflt b ?_
          rw [hfl]
          exact List.mem_cons_of_mem a (List.mem_cons_self b t)
        rw [ha, hb] at hab
        exact Nat.lt_irrefl rid hab
  have hcount : (forget_id s u rid).2 = (s.rows.filter (forgetIdCond u rid)).length := rfl
  refine ⟨?_, ?_, ?_, ?_⟩
  · rw [hcount]
    constructor
    · intro h1
      cases hfl : s.rows.filter (forgetIdCond u rid) with
      | nil => rw [hfl] at h1; cases h1
      | cons a tl =>
        have ha : a ∈ s.rows.filter (forgetIdCond u rid) := by
          rw [hfl]; exact List.mem_cons_self _ _
        have := List.mem_filter.mp ha
        exact ⟨a, this.1, (hcond a).mp this.2⟩
    · rintro ⟨r, hr, hprops⟩
      have hmem : r ∈ s.rows.filter (forgetIdCond u rid) :=
        List.mem_filter.mpr ⟨hr, (hcond r).mpr hprops⟩
      have hpos : 0 < (s.rows.filter (forgetIdCond u rid)).length :=
        List.length_pos_of_mem hmem
      omega
  · rw [hcount]; omega
  · intro h0
    rw [hcount] at h0
    have hnil : ∀ r ∈ s.rows, ¬(forgetIdCond u rid r = true) := by
      have := List.length_eq_zero.mp h0
      intro r hr hc
      have : r ∈ s.rows.filter (forgetIdCond u rid) := List.mem_filter.mpr ⟨hr, hc⟩
      rw [List.length_eq_zero.mp h0] at this
      cases this
    rw [show (forget_id s u rid).1.rows = s.rows.map (fun r =>
        if forgetIdCond u rid r then { r with deleted := true } else r) from rfl]
    refine map_id_of_eq ?_
    intro r hr
    rw [if_neg (hnil r hr)]
  · rw [show (forget_id s u rid).1.rows = s.rows.map (fun r =>
        if forgetIdCond u rid r then { r with deleted := true } else r) from rfl]
    refine forall₂_map_self ?_
    intro r _
    by_cases hc : forgetIdCond u rid r = true
    · rw [if_pos hc]
      exact ⟨fun _ => rfl, fun h => absurd ((hcond r).mp hc) h⟩
    · rw [if_neg hc]
      exact ⟨fun h => absurd ((hcond r).mpr h) hc, fun _ => rfl⟩

/-- Witness for C6: on the §8 scenario store, asking user A to forget an id
owned by JD transitions nothing, returns 0, and leaves every row unchanged. -/
theorem forget_id_spec_witness :
    (forget_id sampleStore5 "A" 2).2 = 0 ∧
    (forget_id sampleStore5 "A" 2).1.rows = sampleStore5.rows := by
  have h := forget_id_spec sampleStore5 "A" 2 (by decide)
  have h0 : (forget_id sampleStore5 "A" 2).2 = 0 := by
    rcases h.2.1 with h0 | h1
    · exact h0
    · exfalso
      have hex := h.1.mp h1
      revert hex
      decide
  exact ⟨h0, h.2.2.1 h0⟩

/-- C7: the deleted flag is monotone.  Each forget operation maps every row
either to itself or, when it is currently live, to the same row with deleted
set; no field other than deleted ever changes, no row is removed or resurrected,
and a successful store_message only appends one fresh row with deleted = false
while a failing one changes nothing.  A soft-deleted row stays physically
present and queryable: it never appears in a get_recent or search result with
include_deleted = false, and get_recent with include_deleted = true (and a
limit covering the table) returns every row of its namespace, soft-deleted
rows included. -/
theorem deleted_monotone (s : Store) (u kw : String) (rid : Nat)
    (role content kind ts : String) :
    List.Forall₂ (fun r r' => r' = r ∨ (r.deleted = false ∧ r' = { r with deleted := true }))
      s.rows (forget_keyword s u kw).1.rows ∧
    List.Forall₂ (fun r r' => r' = r ∨ (r.deleted = false ∧ r' = { r with deleted := true }))
      s.rows (forget_id s u rid).1.rows ∧
    List.Forall₂ (fun r r' => r' = r ∨ (r.deleted = false ∧ r' = { r with deleted := true }))
      s.rows (clear_user s u).1.rows ∧
    (∀ s' i, store_message s u role content kind ts = (s', Except.ok i) →
      s'.rows = s.rows ++ [{ id := s.nextId, user_id := u,
                             role := pyLower (pyStrip role), content := pyStrip content,
                             kind := pyLower (pyStrip (if kind = "" then "chat" else kind)),
                             deleted := false, timestamp := ts }] ∧ i = s.nextId) ∧
    (∀ s' e, store_message s u role content kind ts = (s', Except.error e) → s' = s) ∧
    (∀ r : MemoryRow, r.deleted = true →
      ∀ (v : String) (limit : Int) (kind : Option String) (l : List MemoryRow),
        get_recent s v limit false kind = Except.ok l → r ∉ l) ∧
    (∀ r : MemoryRow, r.deleted = true →
      ∀ (v qy : String) (limit : Int) (kind : Option String) (l : List MemoryRow),
        search s v qy limit false kind = Except.ok l → r ∉ l) ∧
    (∀ r ∈ s.rows, ∀ l : List MemoryRow,
      get_recent s r.user_id (Int.ofNat s.rows.length) true none = Except.ok l → r ∈ l) := by
  have hflip : ∀ (c : MemoryRow → Bool), (∀ r, c r = true → r.deleted = false) →
      List.Forall₂ (fun r r' => r' = r ∨ (r.deleted = false ∧ r' = { r with deleted := true }))
        s.rows (s.rows.map (fun r => if c r then { r with deleted := true } else r)) := by
    intro c hc
    refine forall₂_map_self ?_
    intro r _
    by_cases h : c r = true
    · rw [if_pos h]
      exact Or.inr ⟨hc r h, rfl⟩
    · rw [if_neg h]
      exact Or.inl rfl
  refine ⟨?_, ?_, ?_, ?_, ?_, ?_, ?_, ?_⟩
  · by_cases hq : pyStrip kw = ""
    · rw [show (forget_keyword s u kw).1.rows = s.rows by simp [forget_keyword, hq]]
      rw [List.forall₂_same]
      intro r _
      exact Or.inl rfl
    · rw [show (forget_keyword s u kw).1.rows = s.rows.map (fun r =>
          if forgetKwCond u (pyStrip kw) r then { r with deleted := true } else r) by
        simp [forget_keyword, hq]]
      refine hflip _ ?_
      intro r hr
      simp only [forgetKwCond, Bool.and_eq_true, Bool.not_eq_true'] at hr
      exact hr.1.2
  · refine hflip _ ?_
    intro r hr
    simp only [forgetIdCond, Bool.and_eq_true, Bool.not_eq_true'] at hr
    exact hr.2
  · refine hflip _ ?_
    intro r hr
    simp only [Bool.and_eq_true, Bool.not_eq_true'] at hr
    exact hr.2
  · intro s' i hsi
    have hspec := store_message_cases s u role content kind ts
    by_cases h1 : pyLower (pyStrip role) ∈ (["user", "assistant", "system"] : List String)
    · by_cases h2 : pyLower (pyStrip (if kind = "" then "chat" else kind)) ∈
          (["chat", "remembered"] : List String)
      · by_cases h3 : pyStrip content = ""
        · rw [hspec.2.2.1 h1 h2 h3] at hsi
          injection hsi with hs1 hs2
          exact absurd hs2 (by simp)
        · rw [hspec.2.2.2.2.1 h1 h2 h3] at hsi
          injection hsi with hs1 hs2
          injection hs2 with hs2
          subst hs1
          exact ⟨rfl, hs2.symm⟩
      · rw [hspec.2.1 h1 h2] at hsi
        injection hsi with hs1 hs2
        exact absurd hs2 (by simp)
    · rw [hspec.1 h1] at hsi
      injection hsi with hs1 hs2
      exact absurd hs2 (by simp)
  · intro s' e hse
    have hspec := store_message_cases s u role content kind ts
    have := hspec.2.2.2.1 e
    have h2 : (store_message s u role content kind ts).2 = Except.error e := by
      rw [hse]
    have h1 : (store_message s u role content kind ts).1 = s' := by
      rw [hse]
    rw [← h1]
    exact this h2
  · intro r hd v limit kind l hl hm
    cases hnk : normalizeKindFilter kind with
    | error e => simp [get_recent, hnk] at hl
    | ok kn =>
      simp only [get_recent, hnk] at hl
      injection hl with hl
      subst hl
      obtain ⟨_, hf⟩ := of_mem_sortTake hm
      simp only [recentFilter, Bool.and_eq_true, Bool.or_eq_true, Bool.not_eq_true'] at hf
      rcases hf.1.2 with h | h
      · cases h
      · rw [hd] at h
        cases h
  · intro r hd v qy limit kind l hl hm
    by_cases hq0 : pyStrip qy = ""
    · have hle : l = [] := by
        simp [search, hq0] at hl
        exact hl
      subst hle
      cases hm
    · cases hnk : normalizeKindFilter kind with
      | error e => simp [search, hq0, hnk] at hl
      | ok kn =>
        simp only [search, if_neg hq0, hnk] at hl
        injection hl with hl
        subst hl
        obtain ⟨_, hf⟩ := of_mem_sortTake hm
        simp only [recentFilter, Bool.and_eq_true, Bool.or_eq_true, Bool.not_eq_true'] at hf
        rcases hf.1.1.2 with h | h
        · cases h
        · rw [hd] at h
          cases h
  · intro r hr l hl
    have hn : s.rows.length ≤ effLimit (Int.ofNat s.rows.length) := by
      simp [effLimit]
    simp only [get_recent, normalizeKindFilter] at hl
    injection hl with hl
    subst hl
    rw [mem_sortTake_of_le hn]
    refine ⟨hr, ?_⟩
    simp [recentFilter]

/-- Witness for C7: a concrete successful store on the scenario store appends
exactly the expected fresh live row, and on a one-row store whose only row is
soft-deleted, get_recent with include_deleted = true returns that row. -/
theorem deleted_monotone_witness :
    (store_message sampleStore5 "JD" "user" "hello" "chat" "t6").1.rows =
      sampleStore5.rows ++ [{ id := 6, user_id := "JD", role := "user", content := "hello",
                              kind := "chat", deleted := false, timestamp := "t6" }] ∧
    ({ id := 1, user_id := "JD", role := "user", content := "x", kind := "chat",
       deleted := true, timestamp := "t" } : MemoryRow) ∈
      [({ id := 1, user_id := "JD", role := "user", content := "x", kind := "chat",
          deleted := true, timestamp := "t" } : MemoryRow)] := by
  constructor
  · have h := (deleted_monotone sampleStore5 "JD" "kw" 1 "user" "hello" "chat" "t6").2.2.2.1
      (store_message sampleStore5 "JD" "user" "hello" "chat" "t6").1 6 rfl
    exact h.1
  · exact (deleted_monotone
      { rows := [{ id := 1, user_id := "JD", role := "user", content := "x", kind := "chat",
                   deleted := true, timestamp := "t" }], nextId := 2 }
      "JD" "kw" 1 "user" "hello" "chat" "t6").2.2.2.2.2.2.2
      { id := 1, user_id := "JD", role := "user", content := "x", kind := "chat",
        deleted := true, timestamp := "t" }
      (by decide)
      [{ id := 1, user_id := "JD", role := "user", content := "x", kind := "chat",
         deleted := true, timestamp := "t" }] rfl

/-- The store used to exhibit the wildcard behavior of C5. -/
def c5Store : Store :=
  { rows := [
      { id := 1, user_id := "u", role := "user", content := "abc", kind := "chat",
        deleted := false, timestamp := "t1" },
      { id := 2, user_id := "u", role := "user", content := "hello", kind := "chat",
        deleted := false, timestamp := "t2" },
      { id := 3, user_id := "v", role := "user", content := "zzz", kind := "chat",
        deleted := false, timestamp := "t3" }],
    nextId := 4 }

/-- C5: the keyword is interpolated into the LIKE pattern unescaped, so the
percent and underscore wildcards act: the non-blank keyword percent
soft-deletes every live record of namespace u (and no other namespace), and
the query with an underscore returns the record with content abc even though
it does not contain the query as a literal substring. -/
theorem like_wildcard_injection :
    forget_keyword c5Store "u" "%" =
      ({ rows := [
          { id := 1, user_id := "u", role := "user", content := "abc", kind := "chat",
            deleted := true, timestamp := "t1" },
          { id := 2, user_id := "u", role := "user", content := "hello", kind := "chat",
            deleted := true, timestamp := "t2" },
          { id := 3, user_id := "v", role := "user", content := "zzz", kind := "chat",
            deleted := false, timestamp := "t3" }],
         nextId := 4 }, 2) ∧
    search c5Store "u" "a_c" 10 false none =
      Except.ok [{ id := 1, user_id := "u", role := "user", content := "abc", kind := "chat",
                   deleted := false, timestamp := "t1" }] ∧
    ¬ ("a_c".toList <:+: "abc".toList) :=
  ⟨rfl, rfl, by decide⟩

/-- C8: migration is a no-op when no table exists or when the table already
carries the current content and role columns; on the documented legacy column
layout, a row whose context is remembered is back-filled to content = message,
role = user, kind = remembered, deleted = 0, with the original timestamp and
user untouched (the equality keeps every legacy field of the row). -/
theorem migrate_legacy_spec :
    (∀ t : LegacyTable, ("content" ∈ t.cols ∧ "role" ∈ t.cols) → migrate_legacy t = t) ∧
    (∀ t : LegacyTable, t.cols = [] → migrate_legacy t = t) ∧
    (∀ t : LegacyTable, t.cols = ["user_id", "message", "timestamp", "context"] →
      List.Forall₂ (fun r r' =>
        (r.content = none ∧ r.role = none ∧ r.kind = none ∧ r.deleted = none ∧
          r.context = "remembered") →
        r' = { r with content := some r.message, role := some "user",
                      kind := some "remembered", deleted := some 0 })
        t.rows (migrate_legacy t).rows) := by
  refine ⟨?_, ?_, ?_⟩
  · intro t h
    by_cases hnil : t.cols = []
    · simp [migrate_legacy, hnil]
    · simp [migrate_legacy, hnil, h]
  · intro t h
    simp [migrate_legacy, h]
  · rintro ⟨cols, rows⟩ hcols
    simp only at hcols
    subst hcols
    show List.Forall₂ _ rows _
    rw [show migrate_legacy
        { cols := ["user_id", "message", "timestamp", "context"], rows := rows } =
        { cols := ["user_id", "message", "timestamp", "context", "role", "content",
                   "kind", "deleted"],
          rows := (rows.map (fun r =>
            { r with role := (none : Option String), content := (none : Option String),
                     kind := some "chat", deleted := some 0 })).map migrateUpdateRow } by
      simp only [migrate_legacy, migrateAddCols]
      rw [if_neg (by decide), if_neg (by decide), if_pos (by decide)]
      simp +decide]
    rw [List.map_map]
    refine forall₂_map_self ?_
    rintro r _ ⟨hc, hrole, hk, hd, hctx⟩
    simp only [Function.comp_apply, migrateUpdateRow, hc, hrole, hctx]
    simp [legacyRole, legacyKindIsMemory, pyLower, pyStrip]

/-- Witness for C8: a concrete legacy table with one remembered row is
migrated to the expected back-filled row. -/
theorem migrate_legacy_spec_witness :
    List.Forall₂ (fun r r' =>
      (r.content = none ∧ r.role = none ∧ r.kind = none ∧ r.deleted = none ∧
        r.context = "remembered") →
      r' = { r with content := some r.message, role := some "user",
                    kind := some "remembered", deleted := some 0 })
      ({ cols := ["user_id", "message", "timestamp", "context"],
         rows := [{ user_id := "JD", message := "old fact", timestamp := "2020",
                    context := "remembered", content := none, role := none, kind := none,
                    deleted := none }] } : LegacyTable).rows
      (migrate_legacy
        { cols := ["user_id", "message", "timestamp", "context"],
          rows := [{ user_id := "JD", message := "old fact", timestamp := "2020",
                     context := "remembered", content := none, role := none, kind := none,
                     deleted := none }] }).rows :=
  migrate_legacy_spec.2.2
    { cols := ["user_id", "message", "timestamp", "context"],
      rows := [{ user_id := "JD", message := "old fact", timestamp := "2020",
                 context := "remembered", content := none, role := none, kind := none,
                 deleted := none }] } rfl

/-- C10: the LIKE matcher is ASCII-case-insensitive, identically in search and
forget_keyword: a live record of the user whose content contains the (already
stripped, non-empty) query up to ASCII letter case is returned by search with
a limit covering the table, and forget_keyword soft-deletes every occurrence
of that record. -/
theorem like_ascii_case_insensitive (s : Store) (u q : String) (r : MemoryRow)
    (hq : pyStrip q = q) (hq0 : q ≠ "") (hr : r ∈ s.rows) (hu : r.user_id = u)
    (hd : r.deleted = false) (pre mid post : List Char)
    (hc : r.content.toList = pre ++ (mid ++ post))
    (hcase : List.Forall₂ (fun a b => likeCharEq a b = true) q.toList mid) :
    (∀ l, search s u q (Int.ofNat s.rows.length) false none = Except.ok l → r ∈ l) ∧
    List.Forall₂ (fun a b => a = r → b = { r with deleted := true })
      s.rows (forget_keyword s u q).1.rows := by
  have hpat : ("%" ++ q ++ "%").toList = '%' :: (q.toList ++ ['%']) := by
    show ("%" ++ q ++ "%").data = '%' :: (q.data ++ ['%'])
    rw [String.data_append, String.data_append]
    rfl
  have hlike : sqlLike ("%" ++ q ++ "%") r.content = true := by
    rw [sqlLike, hpat, hc]
    exact likeMatch_infix_caseEq hcase
  constructor
  · intro l hl
    have hn : s.rows.length ≤ effLimit (Int.ofNat s.rows.length) := by
      simp [effLimit]
    have hleq : l = (List.insertionSort rowDescLE
        (s.rows.filter (fun x =>
          recentFilter u false none x &&
            sqlLike ("%" ++ q ++ "%") x.content))).take
          (effLimit (Int.ofNat s.rows.length)) := by
      simp only [search, hq, if_neg hq0, normalizeKindFilter] at hl
      injection hl with hl
      exact hl.symm
    rw [hleq, mem_sortTake_of_le hn]
    refine ⟨hr, ?_⟩
    simp [recentFilter, hu, hd, hlike]
  · have hq' : pyStrip q ≠ "" := by rw [hq]; exact hq0
    rw [show (forget_keyword s u q).1.rows = s.rows.map (fun x =>
        if forgetKwCond u (pyStrip q) x then { x with deleted := true } else x) by
      simp [forget_keyword, hq']]
    refine forall₂_map_self ?_
    intro a _ ha
    subst ha
    rw [if_pos (by simp [forgetKwCond, hq, hu, hd, hlike])]

/-- Witness for C10: the remembered Coffee record is soft-deleted by the
lowercase keyword coffee. -/
theorem like_ascii_case_insensitive_witness :
    List.Forall₂ (fun a b =>
      a = ({ id := 1, user_id := "JD", role := "user",
             content := "likes dark roast Coffee", kind := "remembered",
             deleted := false, timestamp := "t1" } : MemoryRow) →
      b = { id := 1, user_id := "JD", role := "user",
            content := "likes dark roast Coffee", kind := "remembered",
            deleted := true, timestamp := "t1" })
      ({ rows := [{ id := 1, user_id := "JD", role := "user",
                    content := "likes dark roast Coffee", kind := "remembered",
                    deleted := false, timestamp := "t1" }], nextId := 2 } : Store).rows
      (forget_keyword
        { rows := [{ id := 1, user_id := "JD", role := "user",
                     content := "likes dark roast Coffee", kind := "remembered",
                     deleted := false, timestamp := "t1" }], nextId := 2 }
        "JD" "coffee").1.rows :=
  (like_ascii_case_insensitive
    { rows := [{ id := 1, user_id := "JD", role := "user",
                 content := "likes dark roast Coffee", kind := "remembered",
                 deleted := false, timestamp := "t1" }], nextId := 2 }
    "JD" "coffee"
    { id := 1, user_id := "JD", role := "user", content := "likes dark roast Coffee",
      kind := "remembered", deleted := false, timestamp := "t1" }
    (by decide) (by decide) (by decide) rfl rfl
    ['l', 'i', 'k', 'e', 's', ' ', 'd', 'a', 'r', 'k', ' ', 'r', 'o', 'a', 's', 't', ' ']
    ['C', 'o', 'f', 'f', 'e', 'e'] []
    (by decide) (by decide)).2

/-- A SELECT ... ORDER BY id DESC LIMIT result has pairwise distinct ids when
the table does. -/
theorem sortTake_pairwise_ne {rows : List MemoryRow}
    (hids : rows.Pairwise (fun a b => a.id < b.id)) (p : MemoryRow → Bool) (n : Nat) :
    ((List.insertionSort rowDescLE (rows.filter p)).take n).Pairwise
      (fun a b => a.id ≠ b.id) :=
  (sortTake_strict_desc hids p n).imp fun h => (Nat.ne_of_lt h).symm

/-- The chat fetch of build_memory_block never hits the validation error. -/
theorem recentOrEmpty_chat (s : Store) (u : String) (n : Int) :
    recentOrEmpty s u n (some "chat") =
      (List.insertionSort rowDescLE
        (s.rows.filter (recentFilter u false (some "chat")))).take (effLimit n) := rfl

/-- The remembered fetch of build_memory_block never hits the validation
error. -/
theorem recentOrEmpty_remembered (s : Store) (u : String) (n : Int) :
    recentOrEmpty s u n (some "remembered") =
      (List.insertionSort rowDescLE
        (s.rows.filter (recentFilter u false (some "remembered")))).take (effLimit n) := rfl

/-- The merged fetch of build_memory_block has pairwise distinct ids: each
stream has distinct ids, and the two streams are disjoint because one holds
only chat rows and the other only remembered rows of the same table. -/
theorem memoryFetched_pairwise_ne (s : Store) (u : String) (n : Int) (ic ir : Bool)
    (hwf : Store.WF s) :
    (memoryFetched s u n ic ir).Pairwise (fun a b => a.id ≠ b.id) := by
  have hmapnd : (s.rows.map MemoryRow.id).Nodup :=
    (List.pairwise_map).mpr (hwf.1.imp fun h => Nat.ne_of_lt h)
  have hinj := List.inj_on_of_nodup_map hmapnd
  have hchat : ∀ a ∈ recentOrEmpty s u n (some "chat"), a ∈ s.rows ∧ a.kind = "chat" := by
    intro a ha
    rw [recentOrEmpty_chat] at ha
    obtain ⟨h1, h2⟩ := of_mem_sortTake ha
    simp only [recentFilter, Bool.and_eq_true, beq_iff_eq] at h2
    exact ⟨h1, h2.2⟩
  have hrem : ∀ a ∈ recentOrEmpty s u n (some "remembered"),
      a ∈ s.rows ∧ a.kind = "remembered" := by
    intro a ha
    rw [recentOrEmpty_remembered] at ha
    obtain ⟨h1, h2⟩ := of_mem_sortTake ha
    simp only [recentFilter, Bool.and_eq_true, beq_iff_eq] at h2
    exact ⟨h1, h2.2⟩
  have hchatp : (recentOrEmpty s u n (some "chat")).Pairwise (fun a b => a.id ≠ b.id) := by
    rw [recentOrEmpty_chat]
    exact sortTake_pairwise_ne hwf.1 _ _
  have hremp : (recentOrEmpty s u n (some "remembered")).Pairwise
      (fun a b => a.id ≠ b.id) := by
    rw [recentOrEmpty_remembered]
    exact sortTake_pairwise_ne hwf.1 _ _
  rw [memoryFetched, List.pairwise_append]
  refine ⟨?_, ?_, ?_⟩
  · cases ic
    · exact List.Pairwise.nil
    · simpa using hchatp
  · cases ir
    · exact List.Pairwise.nil
    · simpa using hremp
  · intro a ha b hb hid
    cases ic with
    | false => simp at ha
    | true =>
      cases ir with
      | false => simp at hb
      | true =>
        simp only [if_pos rfl] at ha hb
        obtain ⟨ha1, ha2⟩ := hchat a ha
        obtain ⟨hb1, hb2⟩ := hrem b hb
        have hab := hinj ha1 hb1 hid
        have : ("chat" : String) = "remembered" := by rw [← ha2, hab, hb2]
        exact absurd this (by decide)

/-- The 3 chat plus 3 remembered scenario store for build_memory_block:
interleaved kinds, ids 1..6, user JD. -/
def mbStore : Store :=
  { rows := [
      { id := 1, user_id := "JD", role := "user", content := "c1", kind := "chat",
        deleted := false, timestamp := "t1" },
      { id := 2, user_id := "JD", role := "user", content := "c2", kind := "remembered",
        deleted := false, timestamp := "t2" },
      { id := 3, user_id := "JD", role := "user", content := "c3", kind := "chat",
        deleted := false, timestamp := "t3" },
      { id := 4, user_id := "JD", role := "user", content := "c4", kind := "remembered",
        deleted := false, timestamp := "t4" },
      { id := 5, user_id := "JD", role := "user", content := "c5", kind := "chat",
        deleted := false, timestamp := "t5" },
      { id := 6, user_id := "JD", role := "user", content := "c6", kind := "remembered",
        deleted := false, timestamp := "t6" }],
    nextId := 7 }

/-- C1 counterexample: on the 3 chat plus 3 remembered scenario with
inject_count 4, the returned block is a fixed header line followed by the four
record lines, hence five physical lines (four newline characters), not a block
of at most four lines with one line per record. -/
theorem build_memory_block_counterexample :
    build_memory_block mbStore "JD" 4 true true =
      "Long-term memory (SQLite). Use this for continuity:\n- USER (chat): c3\n- USER (remembered): c4\n- USER (chat): c5\n- USER (remembered): c6" ∧
    (build_memory_block mbStore "JD" 4 true true).toList.count '\n' = 4 :=
  ⟨rfl, rfl⟩

/-- C1 amended: when the merged fetch is non-empty and the inject count N is
positive, build_memory_block renders one fixed header line followed by one
line per selected record; the selected records number min N (number fetched),
are in strictly ascending id order, come from the fetched candidates, and have
ids above every fetched candidate that was cut off; on the scenario store with
N = 4 the selected records are exactly ids 3, 4, 5, 6 ascending. -/
theorem build_memory_block_spec :
    (∀ (s : Store) (u : String) (n : Int) (ic ir : Bool), Store.WF s → 0 < n →
      memoryFetched s u n ic ir ≠ [] →
      build_memory_block s u n ic ir =
        pyStrip (String.intercalate "\n"
          (memHeader :: (memorySelected s u n ic ir).map renderMemoryLine)) ∧
      (memorySelected s u n ic ir).length =
        min n.toNat (memoryFetched s u n ic ir).length ∧
      (memorySelected s u n ic ir).Pairwise (fun a b => a.id < b.id) ∧
      (∀ y ∈ memorySelected s u n ic ir, y ∈ memoryFetched s u n ic ir) ∧
      (∀ x ∈ (List.insertionSort rowAscLE (memoryFetched s u n ic ir)).take
          ((List.insertionSort rowAscLE (memoryFetched s u n ic ir)).length - n.toNat),
        ∀ y ∈ memorySelected s u n ic ir, x.id < y.id)) ∧
    memorySelected mbStore "JD" 4 true true = [
      { id := 3, user_id := "JD", role := "user", content := "c3", kind := "chat",
        deleted := false, timestamp := "t3" },
      { id := 4, user_id := "JD", role := "user", content := "c4", kind := "remembered",
        deleted := false, timestamp := "t4" },
      { id := 5, user_id := "JD", role := "user", content := "c5", kind := "chat",
        deleted := false, timestamp := "t5" },
      { id := 6, user_id := "JD", role := "user", content := "c6", kind := "remembered",
        deleted := false, timestamp := "t6" }] := by
  constructor
  · intro s u n ic ir hwf hn hne
    have hne' : (memoryFetched s u n ic ir).Pairwise (fun a b => a.id ≠ b.id) :=
      memoryFetched_pairwise_ne s u n ic ir hwf
    have hperm := List.perm_insertionSort rowAscLE (memoryFetched s u n ic ir)
    have hsortlen := hperm.length_eq
    have hasc : (List.insertionSort rowAscLE (memoryFetched s u n ic ir)).Pairwise
        rowAscLE := List.sorted_insertionSort rowAscLE (memoryFetched s u n ic ir)
    have hsym : ∀ {a b : MemoryRow}, a.id ≠ b.id → b.id ≠ a.id := fun h => Ne.symm h
    have hsne : (List.insertionSort rowAscLE (memoryFetched s u n ic ir)).Pairwise
        (fun a b => a.id ≠ b.id) := (hperm.pairwise_iff hsym).mpr hne'
    have hstrict : (List.insertionSort rowAscLE (memoryFetched s u n ic ir)).Pairwise
        (fun a b => a.id < b.id) :=
      (hasc.and hsne).imp fun h => Nat.lt_of_le_of_ne h.1 h.2
    have hseldef : memorySelected s u n ic ir =
        (List.insertionSort rowAscLE (memoryFetched s u n ic ir)).drop
          ((List.insertionSort rowAscLE (memoryFetched s u n ic ir)).length - n.toNat) :=
      rfl
    refine ⟨?_, ?_, ?_, ?_, ?_⟩
    · rw [build_memory_block, if_neg (not_le.mpr hn), if_neg hne]
    · rw [hseldef, List.length_drop, hsortlen]
      omega
    · rw [hseldef]
      exact hstrict.sublist (List.drop_sublist _ _)
    · intro y hy
      rw [hseldef] at hy
      exact hperm.mem_iff.mp ((List.drop_sublist _ _).subset hy)
    · intro x hx y hy
      rw [hseldef] at hy
      have hsplit := List.take_append_drop
        ((List.insertionSort rowAscLE (memoryFetched s u n ic ir)).length - n.toNat)
        (List.insertionSort rowAscLE (memoryFetched s u n ic ir))
      have hstrict' := hstrict
      rw [← hsplit, List.pairwise_append] at hstrict'
      exact hstrict'.2.2 x hx y hy
  · rfl

/-- Witness for C1 amended: on the scenario store, the render equation of the
amended theorem holds with all hypotheses discharged concretely. -/
theorem build_memory_block_spec_witness :
    build_memory_block mbStore "JD" 4 true true =
      pyStrip (String.intercalate "\n"
        (memHeader :: (memorySelected mbStore "JD" 4 true true).map renderMemoryLine)) :=
  (build_memory_block_spec.1 mbStore "JD" 4 true true (by decide) (by decide)
    (by decide)).1

end Jarvis
